import Mathlib

/-!
Verification of the Shikakeology Action Logger core.

The definitions below are a shallow embedding of the TypeScript source
(`src/App.tsx`, refactored v5.3 application, which is the first and current
document of the file; the older v4.10 component and the unnamed v3.1 file
contain earlier copies of the same functions and are modelled separately
where the claims cite them).  JavaScript numbers that hold epoch
milliseconds are modelled as `Int`; the nullable fields of `SessionInfo`
are `Option Int`, and JavaScript truthiness on them (`null` and `0` are
falsy) is modelled by `optTruthy`.  Screen coordinates and the gesture
classifier are modelled over `ℝ` further below.
-/

namespace Shikake

/-- Category of a recorded action: `type ActionType = 'Pass' | 'Look' | 'Stop' | 'Use'`. -/
inductive ActionType where
  | Pass
  | Look
  | Stop
  | Use
deriving DecidableEq

/-- Operator axis of an input zone: `type Gender = 'Male' | 'Female'`. -/
inductive Gender where
  | Male
  | Female
deriving DecidableEq

/-- Source `interface LogEntry`: identity, two timestamps, the two
operator attributes, the category, a note and the four derived flags. -/
structure LogEntry where
  id : String
  timestamp : String
  unixTime : Int
  gender : Gender
  isGroup : Bool
  action : ActionType
  note : String
  isPass : Bool
  isLook : Bool
  isStop : Bool
  isUse : Bool
deriving DecidableEq

/-- Source `interface SessionInfo`. -/
structure SessionInfo where
  startTime : Option Int
  endTime : Option Int
  note : String
  location : String
deriving DecidableEq

/-- Source `interface ArchivedSession`. -/
structure ArchivedSession where
  id : String
  date : String
  sessionInfo : SessionInfo
  logs : List LogEntry
deriving DecidableEq

/-- The four ui phases of the v5.3 application
(`uiState.mode: 'idle' | 'setup' | 'recording' | 'finishing'`). -/
inductive Mode where
  | idle
  | setup
  | recording
  | finishing
deriving DecidableEq

/-- Combined state of the v5.3 application: the `useShikakeLogger` hook state
(`logs`, `sessionInfo`, `history`, `isRecording`) plus the ui phase. -/
structure AppState where
  logs : List LogEntry
  sessionInfo : SessionInfo
  history : List ArchivedSession
  isRecording : Bool
  mode : Mode
deriving DecidableEq

/-- JavaScript truthiness of a nullable number: `null` and `0` are falsy. -/
def optTruthy : Option Int → Bool
  | none => false
  | some n => n != 0

/-- The `SessionInfo` reset value
`{ startTime: null, endTime: null, note: '', location: '' }`. -/
def emptySessionInfo : SessionInfo :=
  { startTime := none, endTime := none, note := "", location := "" }

/-- The log entry built by `addLog` (App.tsx lines 162-176):
`isUse = action === 'Use'`, `isLook = action === 'Look' || action === 'Stop' || isUse`,
`isStop = action === 'Stop' || isUse`, `isPass = true`, `note: ''`.  The fresh
uuid and the two renderings of the creation instant are parameters. -/
def mkLogEntry (newId nowIso : String) (nowMs : Int) (gender : Gender)
    (isGroup : Bool) (action : ActionType) : LogEntry :=
  { id := newId
    timestamp := nowIso
    unixTime := nowMs
    gender := gender
    isGroup := isGroup
    action := action
    note := ""
    isPass := true
    isLook := action == ActionType.Look || action == ActionType.Stop || action == ActionType.Use
    isStop := action == ActionType.Stop || action == ActionType.Use
    isUse := action == ActionType.Use }

/-- A partial update passed to `updateLog` (`Partial<LogEntry>`).  Every call
site of `updateLog` in the source (the edit modal) passes a subset of the
four operator-editable fields `{gender, isGroup, action, note}`, so the
partial record carries exactly those; `none` means the key is absent. -/
structure LogUpdate where
  gender : Option Gender
  isGroup : Option Bool
  action : Option ActionType
  note : Option String
deriving DecidableEq

/-- One entry's transformation inside `updateLog` (App.tsx lines 178-194):
spread-merge the partial fields over the entry and, when the partial includes
`action` (all `ActionType` strings are truthy), overwrite the four flags
recomputed from the new category. -/
def applyUpdate (u : LogUpdate) (log : LogEntry) : LogEntry :=
  let merged : LogEntry :=
    { log with
      gender := u.gender.getD log.gender
      isGroup := u.isGroup.getD log.isGroup
      action := u.action.getD log.action
      note := u.note.getD log.note }
  match u.action with
  | some act =>
      { merged with
        isPass := true
        isLook := act == ActionType.Look || act == ActionType.Stop || act == ActionType.Use
        isStop := act == ActionType.Stop || act == ActionType.Use
        isUse := act == ActionType.Use }
  | none => merged

/-- Source `updateLog` (App.tsx lines 178-194): map over the store, entries whose id
differs are returned unchanged. -/
def updateLog (id : String) (u : LogUpdate) (logs : List LogEntry) : List LogEntry :=
  logs.map fun log => if log.id = id then applyUpdate u log else log

/-- Source `deleteLog` (App.tsx lines 196-198): `prev.filter(l => l.id !== id)`. -/
def deleteLogList (id : String) (logs : List LogEntry) : List LogEntry :=
  logs.filter fun l => l.id != id

/-- Source `undoLog` (App.tsx lines 200-202): `prev.slice(0, -1)` drops the tail element. -/
def undoLog (logs : List LogEntry) : List LogEntry :=
  logs.dropLast

/-- The four flags of an entry as a tuple `(isPass, isLook, isStop, isUse)`. -/
def flagsOf (e : LogEntry) : Bool × Bool × Bool × Bool :=
  (e.isPass, e.isLook, e.isStop, e.isUse)

/-- The flag mapping exactly as the specification words it (§4.2):
`isPass = true` always, `isUse = (category == Use)`,
`isStop = (category == Stop) or isUse`, `isLook = (category == Look) or isStop`;
returned as `(isPass, isLook, isStop, isUse)`. -/
def specDeriveFlags (c : ActionType) : Bool × Bool × Bool × Bool :=
  let isUse := c == ActionType.Use
  let isStop := c == ActionType.Stop || isUse
  let isLook := c == ActionType.Look || isStop
  (true, isLook, isStop, isUse)

/-- An entry whose flags agree with the mapping derived from its category. -/
def flagsMatch (e : LogEntry) : Bool :=
  e.isPass
    && (e.isUse == (e.action == ActionType.Use))
    && (e.isStop == (e.action == ActionType.Stop || e.action == ActionType.Use))
    && (e.isLook == (e.action == ActionType.Look || e.action == ActionType.Stop
          || e.action == ActionType.Use))

/-- Rewrites an entry's four flags to the given `(isPass, isLook, isStop, isUse)` tuple. -/
def withFlags (f : Bool × Bool × Bool × Bool) (e : LogEntry) : LogEntry :=
  { e with isPass := f.1, isLook := f.2.1, isStop := f.2.2.1, isUse := f.2.2.2 }

/-- The `useShikakeLogger` hook's `addLog` (App.tsx lines 162-176) acting on
the whole application state: it appends unconditionally — the hook variant
performs no `isRecording` check. -/
def addLogS (newId nowIso : String) (nowMs : Int) (gender : Gender)
    (isGroup : Bool) (action : ActionType) (s : AppState) : AppState :=
  { s with logs := s.logs ++ [mkLogEntry newId nowIso nowMs gender isGroup action] }

/-- The component-level `addLog` of the older in-repo versions (App.tsx
lines 1465-1487 and the unnamed file lines 177-203): identical entry
construction but guarded by `if (!isRecording) return;`. -/
def addLogGuarded (newId nowIso : String) (nowMs : Int) (gender : Gender)
    (isGroup : Bool) (action : ActionType) (s : AppState) : AppState :=
  if s.isRecording = false then s
  else { s with logs := s.logs ++ [mkLogEntry newId nowIso nowMs gender isGroup action] }

/-- Source `startSession` (App.tsx lines 150-155): when `startTime` is falsy set it
to `now` and clear `endTime`, otherwise only clear `endTime`; then start
recording. -/
def startSession (now : Int) (s : AppState) : AppState :=
  if optTruthy s.sessionInfo.startTime = false then
    { s with
      sessionInfo := { s.sessionInfo with startTime := some now, endTime := none }
      isRecording := true }
  else
    { s with
      sessionInfo := { s.sessionInfo with endTime := none }
      isRecording := true }

/-- Source `stopSession` (App.tsx lines 157-160): stamp `endTime := now` and stop
recording. -/
def stopSession (now : Int) (s : AppState) : AppState :=
  { s with
    sessionInfo := { s.sessionInfo with endTime := some now }
    isRecording := false }

/-- Source `archiveSession` (App.tsx lines 204-216): on an empty store return
`false` without touching anything; otherwise build the archived snapshot
(`endTime: sessionInfo.endTime || Date.now()`), prepend it to the history,
clear the store, reset the session info and return `true`.  The fresh uuid,
the ISO date string and the clock are parameters. -/
def archiveSession (archId dateIso : String) (now : Int) (s : AppState) :
    AppState × Bool :=
  if s.logs.isEmpty then (s, false)
  else
    let newArchive : ArchivedSession :=
      { id := archId
        date := dateIso
        sessionInfo :=
          { s.sessionInfo with
            endTime :=
              if optTruthy s.sessionInfo.endTime then s.sessionInfo.endTime
              else some now }
        logs := s.logs }
    ({ s with
        history := newArchive :: s.history
        logs := []
        sessionInfo := emptySessionInfo }, true)

/-- Source `handleStartSetup` (App.tsx lines 663-666): enter the setup phase. -/
def handleStartSetup (s : AppState) : AppState :=
  { s with mode := Mode.setup }

/-- Source `handleStartRecording` (App.tsx lines 668-672): `startSession` then enter
the recording phase. -/
def handleStartRecording (now : Int) (s : AppState) : AppState :=
  { startSession now s with mode := Mode.recording }

/-- Source `handleStopRecording` (App.tsx lines 674-678): `stopSession` then enter
the finishing phase. -/
def handleStopRecording (now : Int) (s : AppState) : AppState :=
  { stopSession now s with mode := Mode.finishing }

/-- Source `handleArchive` (App.tsx lines 680-687): on success go to the idle
phase; on failure show `alert('No data')` (returned as the second
component) and leave the state, including the phase, untouched. -/
def handleArchive (archId dateIso : String) (now : Int) (s : AppState) :
    AppState × Option String :=
  match archiveSession archId dateIso now s with
  | (s1, true) => ({ s1 with mode := Mode.idle }, none)
  | (s1, false) => (s1, some "No data")

/-- Source `deleteHistory` (App.tsx lines 218-220): remove one archived session by id. -/
def deleteHistoryS (id : String) (s : AppState) : AppState :=
  { s with history := s.history.filter fun item => item.id != id }

/-- The in-flight gesture episode of `useTouchGesture` (App.tsx lines 230-239). -/
structure ActiveTouch where
  id : Int
  gender : Gender
  isGroup : Bool
  startX : ℝ
  startY : ℝ
  currentX : ℝ
  currentY : ℝ
  selectedAction : ActionType

/-- Source `handleTouchStart` (App.tsx lines 258-268): ignore the touch entirely
while not recording, otherwise open an episode with `selectedAction: 'Pass'`. -/
def handleTouchStart (isRecording : Bool) (touchId : Int) (x y : ℝ)
    (gender : Gender) (isGroup : Bool) (activeTouch : Option ActiveTouch) :
    Option ActiveTouch :=
  if isRecording = false then activeTouch
  else some
    { id := touchId
      gender := gender
      isGroup := isGroup
      startX := x
      startY := y
      currentX := x
      currentY := y
      selectedAction := ActionType.Pass }

/-- One user-level operation of the logger, with the inputs it consumes
(fresh ids and clock readings are data of the operation). -/
inductive Op where
  | startSetup
  | startRecording (now : Int)
  | stopRecording (now : Int)
  | addLog (newId nowIso : String) (nowMs : Int)
      (gender : Gender) (isGroup : Bool) (action : ActionType)
  | updateEntry (id : String) (u : LogUpdate)
  | deleteEntry (id : String)
  | undo
  | archive (archId dateIso : String) (now : Int)
  | deleteHistory (id : String)

/-- Interpretation of one operation on the application state, each case
delegating to the corresponding source function. -/
def step (s : AppState) : Op → AppState
  | Op.startSetup => handleStartSetup s
  | Op.startRecording now => handleStartRecording now s
  | Op.stopRecording now => handleStopRecording now s
  | Op.addLog newId nowIso nowMs gender isGroup action =>
      addLogS newId nowIso nowMs gender isGroup action s
  | Op.updateEntry id u => { s with logs := updateLog id u s.logs }
  | Op.deleteEntry id => { s with logs := deleteLogList id s.logs }
  | Op.undo => { s with logs := undoLog s.logs }
  | Op.archive archId dateIso now => (handleArchive archId dateIso now s).1
  | Op.deleteHistory id => deleteHistoryS id s

/-- Fresh application state: empty store, empty session info, empty history,
not recording, idle phase. -/
def initState : AppState :=
  { logs := []
    sessionInfo := emptySessionInfo
    history := []
    isRecording := false
    mode := Mode.idle }

/-- Run a sequence of operations from the fresh state. -/
def runOps (ops : List Op) : AppState :=
  ops.foldl step initState

/-- Invariant: every entry in the live store and in every archived session
carries flags derived from its category. -/
def FlagInv (s : AppState) : Prop :=
  (∀ e ∈ s.logs, flagsMatch e = true) ∧
  (∀ a ∈ s.history, ∀ e ∈ a.logs, flagsMatch e = true)

theorem mkLogEntry_flagsMatch (newId nowIso : String) (nowMs : Int)
    (gender : Gender) (isGroup : Bool) (action : ActionType) :
    flagsMatch (mkLogEntry newId nowIso nowMs gender isGroup action) = true := by
  cases action <;> rfl

theorem applyUpdate_flagsMatch (u : LogUpdate) (e : LogEntry)
    (h : flagsMatch e = true) : flagsMatch (applyUpdate u e) = true := by
  cases hu : u.action with
  | some act => cases act <;> simp [applyUpdate, hu, flagsMatch]
  | none => simpa [applyUpdate, hu, flagsMatch] using h

theorem FlagInv_of_parts {s t : AppState} (h : FlagInv s)
    (hlogs : t.logs = s.logs) (hhist : t.history = s.history) : FlagInv t := by
  rw [FlagInv, hlogs, hhist]; exact h

theorem startSession_frame (now : Int) (s : AppState) :
    (startSession now s).logs = s.logs ∧ (startSession now s).history = s.history := by
  unfold startSession
  split <;> exact ⟨rfl, rfl⟩

theorem step_preserves_FlagInv (s : AppState) (op : Op) (h : FlagInv s) :
    FlagInv (step s op) := by
  obtain ⟨hl, hh⟩ := h
  cases op with
  | startSetup => exact ⟨hl, hh⟩
  | startRecording now =>
      exact FlagInv_of_parts ⟨hl, hh⟩ (startSession_frame now s).1 (startSession_frame now s).2
  | stopRecording now => exact ⟨hl, hh⟩
  | addLog newId nowIso nowMs gender isGroup action =>
      refine ⟨?_, hh⟩
      intro e he
      rcases List.mem_append.1 he with hm | hm
      · exact hl e hm
      · have : e = mkLogEntry newId nowIso nowMs gender isGroup action := by
          simpa using hm
        rw [this]
        exact mkLogEntry_flagsMatch newId nowIso nowMs gender isGroup action
  | updateEntry id u =>
      refine ⟨?_, hh⟩
      intro e he
      rcases List.mem_map.1 he with ⟨x, hx, hfx⟩
      by_cases hid : x.id = id
      · rw [← hfx, if_pos hid]
        exact applyUpdate_flagsMatch u x (hl x hx)
      · rw [← hfx, if_neg hid]
        exact hl x hx
  | deleteEntry id =>
      refine ⟨?_, hh⟩
      intro e he
      exact hl e (List.mem_of_mem_filter he)
  | undo =>
      refine ⟨?_, hh⟩
      intro e he
      exact hl e ((List.dropLast_sublist s.logs).subset he)
  | archive archId dateIso now =>
      by_cases hemp : s.logs.isEmpty
      · have hs : step s (Op.archive archId dateIso now) = s := by
          simp [step, handleArchive, archiveSession, hemp]
        rw [hs]
        exact ⟨hl, hh⟩
      · constructor
        · intro e he
          simp [step, handleArchive, archiveSession, hemp] at he
        · intro a ha e he
          simp only [step, handleArchive, archiveSession, hemp] at ha
          simp only [Bool.false_eq_true, if_false, List.mem_cons] at ha
          rcases ha with rfl | ha
          · exact hl e he
          · exact hh a ha e he
  | deleteHistory id =>
      refine ⟨hl, ?_⟩
      intro a ha
      exact hh a (List.mem_of_mem_filter ha)

theorem FlagInv_foldl (ops : List Op) (s : AppState) (h : FlagInv s) :
    FlagInv (ops.foldl step s) := by
  induction ops generalizing s with
  | nil => exact h
  | cons op rest ih => exact ih (step s op) (step_preserves_FlagInv s op h)

theorem FlagInv_runOps (ops : List Op) : FlagInv (runOps ops) := by
  refine FlagInv_foldl ops initState ⟨?_, ?_⟩ <;> intro e he <;> simp [initState] at he

theorem flagsMatch_chain {e : LogEntry} (h : flagsMatch e = true) :
    (e.isUse = true → e.isStop = true) ∧ (e.isStop = true → e.isLook = true) ∧
    (e.isLook = true → e.isPass = true) ∧ e.isPass = true := by
  obtain ⟨eid, ets, eut, eg, egrp, eact, enote, ep, elk, est, eus⟩ := e
  simp only [flagsMatch, Bool.and_eq_true, beq_iff_eq] at h
  obtain ⟨⟨⟨hp, hu⟩, hs⟩, hlk⟩ := h
  cases eact <;> simp_all

/-- Sample concrete entry used by the witnesses below. -/
def sampleUseEntry : LogEntry :=
  mkLogEntry "e1" "1970-01-01T00:00:00.005Z" 5 Gender.Male false ActionType.Use

/-- C2: For every category c, the FlagSet computed for a LogEntry — at
creation by addLog, and on every update whose partial fields include the
Category — equals the mapping isPass = true, isUse = (c == Use),
isStop = (c == Stop) or isUse, isLook = (c == Look) or isStop; and an update
whose partial fields do not include the Category leaves the entry's FlagSet
untouched. -/
theorem flags_mapping (newId nowIso : String) (nowMs : Int) (g : Gender)
    (grp : Bool) (c : ActionType) (u : LogUpdate) (e : LogEntry) :
    flagsOf (mkLogEntry newId nowIso nowMs g grp c) = specDeriveFlags c ∧
    (u.action = some c → flagsOf (applyUpdate u e) = specDeriveFlags c) ∧
    (u.action = none → flagsOf (applyUpdate u e) = flagsOf e) := by
  refine ⟨?_, ?_, ?_⟩
  · cases c <;> rfl
  · intro hu
    cases c <;> first
      | (simp [applyUpdate, hu, flagsOf, specDeriveFlags]; done)
      | (simp [applyUpdate, hu, flagsOf, specDeriveFlags]; decide)
  · intro hu
    simp [applyUpdate, hu, flagsOf]

/-- Witness for C2 at the category Use: the update's partial fields include
the category, and the resulting flags are the spec mapping. -/
theorem flags_mapping_witness :
    (⟨none, none, some ActionType.Use, none⟩ : LogUpdate).action = some ActionType.Use ∧
    flagsOf (applyUpdate ⟨none, none, some ActionType.Use, none⟩ sampleUseEntry) =
      specDeriveFlags ActionType.Use :=
  ⟨rfl,
    (flags_mapping "e1" "x" 5 Gender.Male false ActionType.Use
      ⟨none, none, some ActionType.Use, none⟩ sampleUseEntry).2.1 rfl⟩

/-- C3: For every LogEntry present in the LogStore or in any ArchivedSession
after any sequence of operations (addLog, update with any partial set of
mutable fields, undo, delete, archive), its FlagSet satisfies the implication
chain isUse implies isStop implies isLook implies isPass, and isPass is true;
the flags are never set independently of the Category (they always equal the
mapping derived from it, `flagsMatch`). -/
theorem runOps_flag_invariant (ops : List Op) (e : LogEntry)
    (h : e ∈ (runOps ops).logs ∨ ∃ a ∈ (runOps ops).history, e ∈ a.logs) :
    ((e.isUse = true → e.isStop = true) ∧ (e.isStop = true → e.isLook = true) ∧
      (e.isLook = true → e.isPass = true) ∧ e.isPass = true) ∧
    flagsMatch e = true := by
  have hinv := FlagInv_runOps ops
  have hm : flagsMatch e = true := by
    rcases h with hm | ⟨a, ha, he⟩
    · exact hinv.1 e hm
    · exact hinv.2 a ha e he
  exact ⟨flagsMatch_chain hm, hm⟩

/-- Witness for C3: after a single addLog of category Use from the fresh
state, the recorded entry is in the store and satisfies the chain. -/
theorem runOps_flag_invariant_witness :
    ((sampleUseEntry.isUse = true → sampleUseEntry.isStop = true) ∧
      (sampleUseEntry.isStop = true → sampleUseEntry.isLook = true) ∧
      (sampleUseEntry.isLook = true → sampleUseEntry.isPass = true) ∧
      sampleUseEntry.isPass = true) ∧
    flagsMatch sampleUseEntry = true :=
  runOps_flag_invariant
    [Op.addLog "e1" "1970-01-01T00:00:00.005Z" 5 Gender.Male false ActionType.Use]
    sampleUseEntry (Or.inl (by decide))

/-- C7: undo() removes exactly the last (tail) element of the LogStore
regardless of its id — for every store state s, after appending a then b,
undo yields the store with only a appended (so from the empty store,
`[a]`) — and undo() on an empty store is a no-op. -/
theorem undoLog_lifo :
    (∀ (s : List LogEntry) (a b : LogEntry), undoLog (s ++ [a, b]) = s ++ [a]) ∧
    (∀ (a b : LogEntry), undoLog [a, b] = [a]) ∧
    undoLog ([] : List LogEntry) = [] := by
  refine ⟨?_, ?_, rfl⟩
  · intro s a b
    show (s ++ [a, b]).dropLast = s ++ [a]
    rw [show s ++ [a, b] = (s ++ [a]) ++ [b] by simp]
    simp
  · intro a b
    rfl

/-- C8: For every entry whose id is present in the store and every category
X, update(id, \x7baction: X\x7d) sets that entry's FlagSet to exactly
deriveFlags(X) and leaves every other field of that entry, and every other
entry of the store, byte-identical; update with an id absent from the store
leaves the store unchanged. -/
theorem updateLog_action_frame (logs : List LogEntry) (id : String) (c : ActionType) :
    updateLog id ⟨none, none, some c, none⟩ logs =
      logs.map (fun e =>
        if e.id = id then withFlags (specDeriveFlags c) { e with action := c } else e) ∧
    (∀ u : LogUpdate, (∀ e ∈ logs, e.id ≠ id) → updateLog id u logs = logs) := by
  constructor
  · show logs.map _ = logs.map _
    apply List.map_congr_left
    intro e _
    by_cases he : e.id = id
    · rw [if_pos he, if_pos he]
      cases c <;> rfl
    · rw [if_neg he, if_neg he]
  · intro u habs
    induction logs with
    | nil => rfl
    | cons a l ih =>
        show (if a.id = id then applyUpdate u a else a) :: updateLog id u l = a :: l
        rw [if_neg (habs a (List.mem_cons_self a l))]
        rw [ih fun e he => habs e (List.mem_cons_of_mem a he)]

/-- Witness for C8: updating with an id absent from a one-entry store leaves
it unchanged. -/
theorem updateLog_action_frame_witness :
    updateLog "zzz" ⟨none, none, some ActionType.Look, none⟩ [sampleUseEntry] =
      [sampleUseEntry] :=
  (updateLog_action_frame [sampleUseEntry] "zzz" ActionType.Look).2
    ⟨none, none, some ActionType.Look, none⟩ (by decide)

/-- A finishing-phase state with an empty store, used below. -/
def finishingState : AppState :=
  { logs := []
    sessionInfo := { startTime := some 1, endTime := some 2, note := "", location := "" }
    history := []
    isRecording := false
    mode := Mode.finishing }

/-- A finishing-phase state holding one recorded entry, with `endTime` still
null, used below. -/
def sampleRecordedState : AppState :=
  { logs := [sampleUseEntry]
    sessionInfo := { startTime := some 1, endTime := none, note := "n", location := "loc" }
    history := []
    isRecording := false
    mode := Mode.finishing }

/-- C4: If the LogStore is non-empty, archive() succeeds and: the LogStore
becomes empty, the SessionInfo is reset to all-empty/null, and exactly one
new ArchivedSession is prepended (most-recent-first) to the ArchiveStore
whose ordered logs equal the pre-archive LogStore sequence. -/
theorem archive_nonempty (archId dateIso : String) (now : Int) (s : AppState)
    (h : s.logs ≠ []) :
    (archiveSession archId dateIso now s).2 = true ∧
    (archiveSession archId dateIso now s).1.logs = [] ∧
    (archiveSession archId dateIso now s).1.sessionInfo = emptySessionInfo ∧
    ∃ arch : ArchivedSession,
      (archiveSession archId dateIso now s).1.history = arch :: s.history ∧
      arch.logs = s.logs := by
  have hemp : s.logs.isEmpty = false := by simpa [List.isEmpty_iff] using h
  refine ⟨?_, ?_, ?_, ?_⟩
  · simp [archiveSession, hemp]
  · simp [archiveSession, hemp]
  · simp [archiveSession, hemp]
  · refine ⟨⟨archId, dateIso,
      { s.sessionInfo with
        endTime := if optTruthy s.sessionInfo.endTime then s.sessionInfo.endTime
          else some now },
      s.logs⟩, ?_, rfl⟩
    simp [archiveSession, hemp]

/-- Witness for C4 on a concrete one-entry finishing state. -/
theorem archive_nonempty_witness :
    (archiveSession "a1" "d1" 7 sampleRecordedState).2 = true ∧
    (archiveSession "a1" "d1" 7 sampleRecordedState).1.logs = [] ∧
    (archiveSession "a1" "d1" 7 sampleRecordedState).1.sessionInfo = emptySessionInfo ∧
    ∃ arch : ArchivedSession,
      (archiveSession "a1" "d1" 7 sampleRecordedState).1.history =
        arch :: sampleRecordedState.history ∧
      arch.logs = sampleRecordedState.logs :=
  archive_nonempty "a1" "d1" 7 sampleRecordedState (by decide)

/-- C5: If the LogStore is empty, archive() fails, the failure is reported to
the operator (the `'No data'` alert), and zero mutation is performed: the
LogStore, the SessionInfo and the ArchiveStore are unchanged (the whole state
is returned untouched) and the session state remains Finishing. -/
theorem archive_empty_no_mutation (archId dateIso : String) (now : Int)
    (s : AppState) (h : s.logs = []) (hm : s.mode = Mode.finishing) :
    handleArchive archId dateIso now s = (s, some "No data") ∧
    (handleArchive archId dateIso now s).1.mode = Mode.finishing := by
  have hemp : s.logs.isEmpty = true := by simp [h]
  have hfail : handleArchive archId dateIso now s = (s, some "No data") := by
    simp [handleArchive, archiveSession, hemp]
  exact ⟨hfail, by rw [hfail]; exact hm⟩

/-- Witness for C5 on a concrete empty finishing state. -/
theorem archive_empty_no_mutation_witness :
    handleArchive "a1" "d1" 7 finishingState = (finishingState, some "No data") ∧
    (handleArchive "a1" "d1" 7 finishingState).1.mode = Mode.finishing :=
  archive_empty_no_mutation "a1" "d1" 7 finishingState rfl rfl

/-- Counterexample to C6 as stated: in the current (v5.3) hook, `addLog`
itself performs no state check — called on a Finishing-phase, not-recording
state it still appends, so it is not a no-op outside Recording. -/
theorem addLog_not_gated_cex :
    finishingState.isRecording = false ∧ finishingState.mode = Mode.finishing ∧
    (addLogS "e9" "iso9" 9 Gender.Female true ActionType.Look finishingState).logs ≠
      finishingState.logs := by
  refine ⟨rfl, rfl, ?_⟩
  decide

/-- C6 (amended): the guarded component-level `addLog` of the older in-repo
versions is a no-op whenever the state is not Recording; in the v5.3 hook the
Recording gate is enforced at gesture start instead — `handleTouchStart`
ignores the touch entirely while not recording, so no classification episode
(whose end is the only `addLog` caller) can open outside Recording — while
the hook-level `addLog` itself appends unconditionally. -/
theorem addLog_gating_amended :
    (∀ (newId nowIso : String) (nowMs : Int) (g : Gender) (grp : Bool)
        (act : ActionType) (s : AppState), s.isRecording = false →
        addLogGuarded newId nowIso nowMs g grp act s = s) ∧
    (∀ (touchId : Int) (x y : ℝ) (g : Gender) (grp : Bool)
        (at0 : Option ActiveTouch),
        handleTouchStart false touchId x y g grp at0 = at0) ∧
    (∀ (newId nowIso : String) (nowMs : Int) (g : Gender) (grp : Bool)
        (act : ActionType) (s : AppState),
        (addLogS newId nowIso nowMs g grp act s).logs =
          s.logs ++ [mkLogEntry newId nowIso nowMs g grp act]) := by
  refine ⟨?_, ?_, ?_⟩
  · intro newId nowIso nowMs g grp act s hrec
    simp [addLogGuarded, hrec]
  · intro touchId x y g grp at0
    rfl
  · intro newId nowIso nowMs g grp act s
    rfl

/-- Witness for C6 (amended): the guarded addLog is a no-op on a concrete
not-recording state. -/
theorem addLog_gating_amended_witness :
    addLogGuarded "e9" "iso9" 9 Gender.Female true ActionType.Look finishingState =
      finishingState :=
  addLog_gating_amended.1 "e9" "iso9" 9 Gender.Female true ActionType.Look
    finishingState rfl

/-- C10: Every ArchivedSession created by archive() has a non-null endTime:
when SessionInfo.endTime is null at the moment of archiving, the archived
snapshot's endTime is set to the archive-time clock value (now) instead of
being copied as null, so the snapshot is not an exact copy of the live
SessionInfo in that case. -/
theorem archive_endTime_nonnull (archId dateIso : String) (now : Int)
    (s : AppState) (h : s.logs ≠ []) :
    ∃ arch : ArchivedSession,
      (archiveSession archId dateIso now s).1.history = arch :: s.history ∧
      arch.sessionInfo.endTime.isSome = true ∧
      (s.sessionInfo.endTime = none →
        arch.sessionInfo.endTime = some now ∧ arch.sessionInfo ≠ s.sessionInfo) := by
  have hemp : s.logs.isEmpty = false := by simpa [List.isEmpty_iff] using h
  refine ⟨⟨archId, dateIso,
    { s.sessionInfo with
      endTime := if optTruthy s.sessionInfo.endTime then s.sessionInfo.endTime
        else some now },
    s.logs⟩, by simp [archiveSession, hemp], ?_, ?_⟩
  · cases hET : s.sessionInfo.endTime with
    | none => simp [optTruthy, hET]
    | some n =>
        by_cases hn : n = 0 <;> simp [optTruthy, hET, hn]
  · intro hET
    constructor
    · simp [optTruthy, hET]
    · intro hcontra
      have := congrArg SessionInfo.endTime hcontra
      rw [hET] at this
      simp [optTruthy, hET] at this

/-- Witness for C10 on a concrete state whose live endTime is null. -/
theorem archive_endTime_nonnull_witness :
    ∃ arch : ArchivedSession,
      (archiveSession "a1" "d1" 7 sampleRecordedState).1.history =
        arch :: sampleRecordedState.history ∧
      arch.sessionInfo.endTime.isSome = true ∧
      (sampleRecordedState.sessionInfo.endTime = none →
        arch.sessionInfo.endTime = some 7 ∧
        arch.sessionInfo ≠ sampleRecordedState.sessionInfo) :=
  archive_endTime_nonnull "a1" "d1" 7 sampleRecordedState (by decide)

/-- Local calendar rendering of an instant, as read off a JavaScript `Date`:
`year = getFullYear()`, `month = getMonth() + 1` (so already 1-based),
`day`, `hour`, `minute`, `second`.  The epoch-milliseconds-to-calendar
conversion is timezone dependent and is passed as a parameter below. -/
structure DateTime where
  year : Nat
  month : Nat
  day : Nat
  hour : Nat
  minute : Nat
  second : Nat

/-- Model of `String(n).padStart(2, '0')`. -/
def pad2 (n : Nat) : String :=
  if (toString n).length < 2 then "0" ++ toString n else toString n

/-- The `dateStr` built in `downloadCSV` (App.tsx lines 355-360):
`YYYY-MM-DD_HH-mm-ss` with two-digit zero padding of all but the year. -/
def formatDateStr (d : DateTime) : String :=
  toString d.year ++ "-" ++ pad2 d.month ++ "-" ++ pad2 d.day ++ "_" ++
    pad2 d.hour ++ "-" ++ pad2 d.minute ++ "-" ++ pad2 d.second

/-- Membership in the character class of `/[\\/:*?"<>| \n\r]/`. -/
def badFilenameChar (c : Char) : Bool :=
  c == '\\' || c == '/' || c == ':' || c == '*' || c == '?' || c == '"' ||
    c == '<' || c == '>' || c == '|' || c == ' ' || c == '\n' || c == '\r'

/-- Model of the replace call with the unsafe-character class: every character of the class is
replaced by an underscore. -/
def sanitizeFilename (s : String) : String :=
  String.mk (s.data.map fun c => if badFilenameChar c then '_' else c)

/-- The filename computed by `downloadCSV` (App.tsx lines 351-368): base time
is the session start when truthy, else the current instant; then
`` `${prefix}_${dateStr}${metaStr}.csv` `` where `metaStr` appends
`_location` when the location is non-empty and `_` plus the first 10
characters of the note when the note is non-empty, sanitized as a whole. -/
def downloadCSVFilename (conv : Int → DateTime) (nowMs : Int)
    (info : SessionInfo) (pre : String) : String :=
  let baseTime :=
    if optTruthy info.startTime then conv (info.startTime.getD 0) else conv nowMs
  let dateStr := formatDateStr baseTime
  let metaStr :=
    (if info.location != "" then "_" ++ info.location else "") ++
    (if info.note != "" then "_" ++ info.note.take 10 else "")
  pre ++ "_" ++ dateStr ++ sanitizeFilename metaStr ++ ".csv"

/-- Observable outcome of `downloadCSV` on the filename: with an empty log
list it alerts and produces no file (App.tsx line 302), otherwise it
downloads under `downloadCSVFilename`. -/
def downloadCSVResult (conv : Int → DateTime) (nowMs : Int)
    (logs : List LogEntry) (info : SessionInfo) (pre : String) : Option String :=
  if logs.isEmpty then none
  else some (downloadCSVFilename conv nowMs info pre)

/-- Modelled from the spec wording of C9: the prefix, then the session's
start instant (or the current instant if startTime is unset, i.e. null)
formatted as YYYY-MM-DD_HH-mm-ss, then a sanitized suffix built from the
location and the first 10 characters of the note, ending in `.csv`. -/
def specExportFilename (conv : Int → DateTime) (nowMs : Int)
    (info : SessionInfo) (pre : String) : String :=
  let base :=
    match info.startTime with
    | some t => conv t
    | none => conv nowMs
  pre ++ "_" ++ formatDateStr base ++
    (if info.location != "" then "_" ++ sanitizeFilename info.location else "") ++
    (if info.note != "" then "_" ++ sanitizeFilename (info.note.take 10) else "") ++
    ".csv"

/-- The amended reading of C9: identical, except that the current instant is
also used when the recorded start instant is the (falsy) epoch value 0. -/
def specExportFilenameAmended (conv : Int → DateTime) (nowMs : Int)
    (info : SessionInfo) (pre : String) : String :=
  let base :=
    if optTruthy info.startTime then conv (info.startTime.getD 0) else conv nowMs
  pre ++ "_" ++ formatDateStr base ++
    (if info.location != "" then "_" ++ sanitizeFilename info.location else "") ++
    (if info.note != "" then "_" ++ sanitizeFilename (info.note.take 10) else "") ++
    ".csv"

theorem sanitizeFilename_append (a b : String) :
    sanitizeFilename (a ++ b) = sanitizeFilename a ++ sanitizeFilename b := by
  show String.mk _ = String.mk _ ++ String.mk _
  rw [String.data_append, List.map_append]
  rfl

theorem underscore_cons (l : List Char) (x : String) :
    String.mk ('_' :: l) ++ x = "_" ++ (String.mk l ++ x) := by
  rw [← String.append_assoc]
  rfl

/-- A concrete timezone conversion used by the counterexample: year
`1970 + t`, all other fields fixed. -/
def cexConv : Int → DateTime :=
  fun t => ⟨(1970 + t).toNat, 1, 1, 0, 0, 0⟩

/-- A session whose recorded start instant is the epoch value 0 (a set, but
JavaScript-falsy, value). -/
def cexInfo : SessionInfo :=
  { startTime := some 0, endTime := none, note := "", location := "" }

/-- Counterexample to C9 as stated: with `startTime = some 0` — a set start
instant — the code falls back to the current instant (truthiness, not a null
check), so the produced filename differs from the spec's description. -/
theorem downloadCSVFilename_cex :
    downloadCSVFilename cexConv 30 cexInfo "log" ≠
      specExportFilename cexConv 30 cexInfo "log" ∧
    downloadCSVResult cexConv 30 [sampleUseEntry] cexInfo "log" =
      some (downloadCSVFilename cexConv 30 cexInfo "log") := by
  constructor
  · decide
  · rfl

/-- C9 (amended): For every (logs, SessionInfo, prefix) input with a
non-empty log list, the export filename equals the prefix, then the
session's start instant (or the current instant if startTime is unset or
zero) formatted as YYYY-MM-DD_HH-mm-ss, then a sanitized suffix built from
the location and the first 10 characters of the note with filesystem-unsafe
characters replaced by underscores, ending in '.csv'. -/
theorem downloadCSV_filename_amended (conv : Int → DateTime) (nowMs : Int)
    (logs : List LogEntry) (info : SessionInfo) (pre : String)
    (h : logs ≠ []) :
    downloadCSVResult conv nowMs logs info pre =
      some (specExportFilenameAmended conv nowMs info pre) := by
  have hemp : logs.isEmpty = false := by simpa [List.isEmpty_iff] using h
  rw [downloadCSVResult, hemp]
  show some _ = some _
  rw [downloadCSVFilename, specExportFilenameAmended]
  rw [sanitizeFilename_append]
  by_cases hloc : info.location != "" <;> by_cases hnote : info.note != "" <;>
    simp only [hloc, hnote, if_true, if_false, Bool.false_eq_true] <;>
    simp [sanitizeFilename_append, String.append_assoc, sanitizeFilename,
      underscore_cons]

/-- Witness for C9 (amended) on a concrete input. -/
theorem downloadCSV_filename_amended_witness :
    downloadCSVResult cexConv 30 [sampleUseEntry] cexInfo "log" =
      some (specExportFilenameAmended cexConv 30 cexInfo "log") :=
  downloadCSV_filename_amended cexConv 30 [sampleUseEntry] cexInfo "log"
    (by decide)

/-- Model of `Math.atan2(y, x)`: the angle of the point `(x, y)`, in `(-π, π]`, which
is the argument of the complex number `x + y·i`. -/
noncomputable def atan2 (y x : ℝ) : ℝ := Complex.arg ⟨x, y⟩

/-- The angle computed by `determineAction` (App.tsx lines 244-245):
`Math.atan2(dy, dx) * (180 / Math.PI)`, then `if (angle < 0) angle += 360`. -/
noncomputable def normAngleDeg (dx dy : ℝ) : ℝ :=
  if atan2 dy dx * (180 / Real.pi) < 0 then atan2 dy dx * (180 / Real.pi) + 360
  else atan2 dy dx * (180 / Real.pi)

theorem normAngleDeg_bounds (dx dy : ℝ) :
    0 ≤ normAngleDeg dx dy ∧ normAngleDeg dx dy < 360 := by
  have hpi : (0:ℝ) < Real.pi := Real.pi_pos
  have hc : (0:ℝ) < 180 / Real.pi := by positivity
  have h1 : -Real.pi < atan2 dy dx := Complex.neg_pi_lt_arg _
  have h2 : atan2 dy dx ≤ Real.pi := Complex.arg_le_pi _
  have he : Real.pi * (180 / Real.pi) = 180 := by
    rw [mul_comm, div_mul_cancel₀ _ (ne_of_gt hpi)]
  have hl : -180 < atan2 dy dx * (180 / Real.pi) := by
    have hm := mul_lt_mul_of_pos_right h1 hc
    rw [neg_mul, he] at hm
    linarith
  have hr : atan2 dy dx * (180 / Real.pi) ≤ 180 := by
    have hm := mul_le_mul_of_nonneg_right h2 hc.le
    rw [he] at hm
    linarith
  unfold normAngleDeg
  split <;> constructor <;> linarith

/-- Source `determineAction` (App.tsx lines 241-256): distance gate, then the
sector chain exactly as the if-cascade of the source; the final
`return 'Pass'` is the fallback of both gender branches. -/
noncomputable def determineAction (dx dy : ℝ) (gender : Gender) : ActionType :=
  if Real.sqrt (dx * dx + dy * dy) < 50 then ActionType.Pass
  else if 225 ≤ normAngleDeg dx dy ∧ normAngleDeg dx dy < 315 then ActionType.Look
  else if 45 ≤ normAngleDeg dx dy ∧ normAngleDeg dx dy < 135 then ActionType.Use
  else if gender = Gender.Male then
    if 315 ≤ normAngleDeg dx dy ∨ normAngleDeg dx dy < 45 then ActionType.Stop
    else ActionType.Pass
  else
    if 135 ≤ normAngleDeg dx dy ∧ normAngleDeg dx dy < 225 then ActionType.Stop
    else ActionType.Pass

/-- The sector algorithm exactly as the specification words it (§4.1):
distance gate on `sqrt(dx² + dy²)`, then the half-open sectors in precedence
order, the Stop sector given by `[315, 360) ∪ [0, 45)` for axis A (Male)
and `[135, 225)` for axis B (Female), otherwise Pass. -/
noncomputable def specClassify (dx dy : ℝ) (axis : Gender) : ActionType :=
  if Real.sqrt (dx ^ 2 + dy ^ 2) < 50 then ActionType.Pass
  else if 225 ≤ normAngleDeg dx dy ∧ normAngleDeg dx dy < 315 then ActionType.Look
  else if 45 ≤ normAngleDeg dx dy ∧ normAngleDeg dx dy < 135 then ActionType.Use
  else if (axis = Gender.Male ∧
      ((315 ≤ normAngleDeg dx dy ∧ normAngleDeg dx dy < 360) ∨
        (0 ≤ normAngleDeg dx dy ∧ normAngleDeg dx dy < 45))) ∨
    (axis = Gender.Female ∧ (135 ≤ normAngleDeg dx dy ∧ normAngleDeg dx dy < 225))
    then ActionType.Stop
  else ActionType.Pass

theorem determineAction_eq_spec (dx dy : ℝ) (g : Gender) :
    determineAction dx dy g = specClassify dx dy g := by
  obtain ⟨h0, h360⟩ := normAngleDeg_bounds dx dy
  unfold determineAction specClassify
  rw [show dx * dx + dy * dy = dx ^ 2 + dy ^ 2 from by ring]
  set a := normAngleDeg dx dy with ha
  by_cases hd : Real.sqrt (dx ^ 2 + dy ^ 2) < 50
  · rw [if_pos hd, if_pos hd]
  · rw [if_neg hd, if_neg hd]
    by_cases h1 : 225 ≤ a ∧ a < 315
    · rw [if_pos h1, if_pos h1]
    · rw [if_neg h1, if_neg h1]
      by_cases h2 : 45 ≤ a ∧ a < 135
      · rw [if_pos h2, if_pos h2]
      · rw [if_neg h2, if_neg h2]
        cases g with
        | Male =>
            rw [if_pos rfl]
            by_cases h3 : 315 ≤ a ∨ a < 45
            · have hside : (Gender.Male = Gender.Male ∧
                  ((315 ≤ a ∧ a < 360) ∨ (0 ≤ a ∧ a < 45))) ∨
                  (Gender.Male = Gender.Female ∧ (135 ≤ a ∧ a < 225)) := by
                left
                refine ⟨rfl, ?_⟩
                rcases h3 with h3 | h3
                · exact Or.inl ⟨h3, h360⟩
                · exact Or.inr ⟨h0, h3⟩
              rw [if_pos h3, if_pos hside]
            · have hside : ¬ ((Gender.Male = Gender.Male ∧
                  ((315 ≤ a ∧ a < 360) ∨ (0 ≤ a ∧ a < 45))) ∨
                  (Gender.Male = Gender.Female ∧ (135 ≤ a ∧ a < 225))) := by
                rintro (⟨-, hcl | hcl⟩ | ⟨hf, -⟩)
                · exact h3 (Or.inl hcl.1)
                · exact h3 (Or.inr hcl.2)
                · exact Gender.noConfusion hf
              rw [if_neg h3, if_neg hside]
        | Female =>
            rw [if_neg (by decide : ¬ (Gender.Female = Gender.Male))]
            by_cases h3 : 135 ≤ a ∧ a < 225
            · rw [if_pos h3, if_pos (Or.inr ⟨rfl, h3⟩)]
            · have hside : ¬ ((Gender.Female = Gender.Male ∧
                  ((315 ≤ a ∧ a < 360) ∨ (0 ≤ a ∧ a < 45))) ∨
                  (Gender.Female = Gender.Female ∧ (135 ≤ a ∧ a < 225))) := by
                rintro (⟨hm, -⟩ | ⟨-, hcl⟩)
                · exact Gender.noConfusion hm
                · exact h3 hcl
              rw [if_neg h3, if_neg hside]

theorem determineAction_boundary : determineAction 50 0 Gender.Male = ActionType.Stop := by
  have hs : Real.sqrt (50 * 50 + 0 * 0 : ℝ) = 50 := by
    rw [show (50 * 50 + 0 * 0 : ℝ) = 50 ^ 2 by norm_num,
      Real.sqrt_sq (by norm_num : (0:ℝ) ≤ 50)]
  have h0 : atan2 0 50 = 0 := by
    rw [atan2, Complex.arg_eq_zero_iff]
    constructor <;> norm_num
  have hn : normAngleDeg 50 0 = 0 := by
    rw [normAngleDeg, h0]
    norm_num
  unfold determineAction
  rw [hs, hn]
  rw [if_neg (by norm_num), if_neg (by norm_num), if_neg (by norm_num),
    if_pos rfl, if_pos (by norm_num : (315:ℝ) ≤ 0 ∨ (0:ℝ) < 45)]

/-- C1: For all real inputs dx, dy and each operator axis,
classify(dx, dy, axis) equals the spec's sector algorithm (distance gate
strict at 50, then the half-open Look/Use/Stop sectors depending on the
axis, otherwise Pass); in particular a drag of distance exactly 50 with a
qualifying angle — here (dx, dy) = (50, 0), distance exactly 50, angle 0,
axis A — returns the directional category Stop, not Pass. -/
theorem determineAction_matches_spec :
    (∀ (dx dy : ℝ) (g : Gender), determineAction dx dy g = specClassify dx dy g) ∧
    Real.sqrt (50 * 50 + 0 * 0 : ℝ) = 50 ∧
    determineAction 50 0 Gender.Male = ActionType.Stop := by
  refine ⟨determineAction_eq_spec, ?_, determineAction_boundary⟩
  rw [show (50 * 50 + 0 * 0 : ℝ) = 50 ^ 2 by norm_num,
    Real.sqrt_sq (by norm_num : (0:ℝ) ≤ 50)]

end Shikake
